import Mathlib

/-!
Verification development for the block-editor interaction core
(`BlockEvents` keyboard handlers and the `DragNDrop` module).

The keyboard handlers are translated from `components/modules/blockEvents.ts`
(the unnamed source file) and the drag-and-drop bridge from
`components/modules/dragNDrop.ts`.  Collaborator modules that are not part of
the sources (BlockManager, the Caret service, the caret/selection probe,
`areBlocksMergeable`, Flipper) are modelled from the specification and each
such definition is marked `Modelled from the spec`.
-/

namespace EditorCore

/-! ### Key codes (from `utils` `keyCodes`) -/

def keyCodes.BACKSPACE : Nat := 8
def keyCodes.TAB : Nat := 9
def keyCodes.ENTER : Nat := 13
def keyCodes.LEFT : Nat := 37
def keyCodes.UP : Nat := 38
def keyCodes.RIGHT : Nat := 39
def keyCodes.DOWN : Nat := 40
def keyCodes.DELETE : Nat := 46

/-! ### Data model -/

/-- A Block: content-type identifier, its ordered editable inputs (each an
editable text region, represented by its text), media and line-break flags,
and the transient drop-target highlight flag. -/
structure Block where
  typeId : String
  inputs : List String
  hasMedia : Bool
  isLineBreaksEnabled : Bool
  dropTarget : Bool
deriving Repr, DecidableEq

/-- Modelled from the spec: a Block's "is empty" predicate over its inputs
(§3: "an "is empty" predicate over its inputs"). -/
def Block.isEmpty (b : Block) : Bool :=
  b.inputs.all String.isEmpty

/-- A block's textual content, input by input. The "content" compared by the
merge properties is the ordered sequence of its inputs' texts. -/
def Block.content (b : Block) : List String :=
  b.inputs

/-- The editor state the handlers read fresh on each event: the ordered block
sequence, the current block index tracked by the Block Sequence Store
(`none` when focus left the editor), and the caret address inside the current
block (current input index and text offset inside that input). -/
structure EditorState where
  blocks : List Block
  currentBlockIndex : Option Nat
  currentInputIndex : Nat
  caretOffset : Nat
deriving Repr, DecidableEq

/-- `BlockManager.currentBlock`: the block at the current index, if any. -/
def currentBlock (st : EditorState) : Option Block :=
  match st.currentBlockIndex with
  | none => none
  | some c => st.blocks[c]?

/-- `currentBlock.currentInput`: the text of the focused input of the current
block, if any. -/
def currentInput (st : EditorState) : Option String :=
  match currentBlock st with
  | none => none
  | some b => b.inputs[st.currentInputIndex]?

/-- Modelled from the spec: `BlockManager.previousBlock` returns the block at
current index − 1, or an absent value at the sequence boundary (§4.2). -/
def previousBlock (st : EditorState) : Option Block :=
  match st.currentBlockIndex with
  | none => none
  | some c => if c == 0 then none else st.blocks[c-1]?

/-- Modelled from the spec: `BlockManager.nextBlock` returns the block at
current index + 1, or an absent value at the sequence boundary (§4.2). -/
def nextBlock (st : EditorState) : Option Block :=
  match st.currentBlockIndex with
  | none => none
  | some c => st.blocks[c+1]?

/-! ### Caret/selection probe (modelled from the spec, §4.1) -/

/-- Modelled from the spec: `isCaretAtStartOfInput` — the caret offset is at
the logical start of the input's text. -/
def isCaretAtStartOfInput (offset : Nat) : Bool :=
  offset == 0

/-- Modelled from the spec: `isCaretAtEndOfInput` — the caret offset is at the
logical end of the input's text. -/
def isCaretAtEndOfInput (input : String) (offset : Nat) : Bool :=
  offset == input.length

/-! ### Block Sequence Store primitives (modelled from the spec, §4.2) -/

/-- Modelled from the spec: the new empty default-type block inserted by
`insertDefaultBlockAtIndex`. -/
def defaultBlock : Block :=
  { typeId := "paragraph", inputs := [""], hasMedia := false,
    isLineBreaksEnabled := false, dropTarget := false }

/-- Modelled from the spec: `insertDefaultBlockAtIndex(index, setCurrent?)`
inserts a new empty default-type block at `index`, shifting subsequent blocks;
the current index is updated only when `setCurrent` is requested. -/
def insertDefaultBlockAtIndex (st : EditorState) (index : Nat) (setCurrent : Bool) :
    EditorState :=
  { st with
    blocks := st.blocks.take index ++ defaultBlock :: st.blocks.drop index,
    currentBlockIndex := if setCurrent then some index else st.currentBlockIndex }

/-- Modelled from the spec: `removeBlock` removes the block at `idx`; if that
empties the sequence a default block is auto-inserted, and the current index is
updated to a defined neighbor (the predecessor, clamped into range). -/
def removeBlockAt (st : EditorState) (idx : Nat) : EditorState :=
  let blocks' := st.blocks.take idx ++ st.blocks.drop (idx + 1)
  let blocks2 := if blocks' = [] then [defaultBlock] else blocks'
  let cur' := match st.currentBlockIndex with
    | none => none
    | some c => some (min (if idx ≤ c then c - 1 else c) (blocks2.length - 1))
  { st with blocks := blocks2, currentBlockIndex := cur' }

/-- The caret positions of the Caret service: START, END and DEFAULT. -/
inductive CaretPosition where
  | atStart
  | atEnd
  | dflt
deriving Repr, DecidableEq

/-- Modelled from the spec: `Caret.setToBlock(block, position)` focuses the
addressed block and puts the caret at its start or at the end of its last
input; a no-op when no block lives at the index. -/
def setToBlock (st : EditorState) (idx : Nat) (pos : CaretPosition) : EditorState :=
  match st.blocks[idx]? with
  | none => st
  | some b =>
    match pos with
    | CaretPosition.atEnd =>
        { st with currentBlockIndex := some idx,
                  currentInputIndex := b.inputs.length - 1,
                  caretOffset := (b.inputs.getLast?.getD "").length }
    | _ =>
        { st with currentBlockIndex := some idx,
                  currentInputIndex := 0,
                  caretOffset := 0 }

/-- Modelled from the spec: the Block Sequence Store's `mergeBlocks(target,
source)` appends the source's content to the target and then removes the
source block (§4.2). -/
def storeMergeBlocks (st : EditorState) (targetIdx sourceIdx : Nat) : EditorState :=
  match st.blocks[targetIdx]?, st.blocks[sourceIdx]? with
  | some t, some s =>
      let st' := { st with
        blocks := st.blocks.take targetIdx ++
          { t with inputs := t.inputs ++ s.inputs } :: st.blocks.drop (targetIdx + 1) }
      removeBlockAt st' sourceIdx
  | _, _ => st

/-- Modelled from the spec: `Caret.navigateNext()` — move the caret to the next
input of the current block, or to the start of the next block; returns whether
movement occurred. -/
def navigateNext (st : EditorState) : Bool × EditorState :=
  match st.currentBlockIndex with
  | none => (false, st)
  | some c =>
    match st.blocks[c]? with
    | none => (false, st)
    | some b =>
      if st.currentInputIndex + 1 < b.inputs.length then
        (true, { st with currentInputIndex := st.currentInputIndex + 1, caretOffset := 0 })
      else if c + 1 < st.blocks.length then
        (true, setToBlock st (c+1) CaretPosition.atStart)
      else
        (false, st)

/-- Modelled from the spec: `Caret.navigatePrevious()` — move the caret to the
end of the previous input of the current block, or to the end of the previous
block; returns whether movement occurred. -/
def navigatePrevious (st : EditorState) : Bool × EditorState :=
  match st.currentBlockIndex with
  | none => (false, st)
  | some c =>
    match st.blocks[c]? with
    | none => (false, st)
    | some b =>
      if 0 < st.currentInputIndex then
        let inp := (b.inputs[st.currentInputIndex - 1]?).getD ""
        (true, { st with currentInputIndex := st.currentInputIndex - 1,
                         caretOffset := inp.length })
      else if 0 < c then
        (true, setToBlock st (c-1) CaretPosition.atEnd)
      else
        (false, st)

/-- Modelled from the spec: `Caret.insertContentAtCaretPosition(text)` inserts
the text at the caret offset inside the focused input. -/
def insertContentAtCaretPosition (st : EditorState) (text : String) : EditorState :=
  match st.currentBlockIndex with
  | none => st
  | some c =>
    match st.blocks[c]? with
    | none => st
    | some b =>
      match b.inputs[st.currentInputIndex]? with
      | none => st
      | some inp =>
        let inp' := inp.take st.caretOffset ++ text ++ inp.drop st.caretOffset
        let b' := { b with inputs := b.inputs.set st.currentInputIndex inp' }
        { st with blocks := st.blocks.set c b',
                  caretOffset := st.caretOffset + text.length }

/-- Modelled from the spec: `getBlockByChildNode` maps a DOM-level event target
back to its owning block, or to no block.  The DOM target is abstracted as the
index of the block owning it, when one does. -/
def getBlockByChildNode (st : EditorState) (targetOwner : Option Nat) : Option Nat :=
  match targetOwner with
  | none => none
  | some i => if i < st.blocks.length then some i else none

/-- Modelled from the spec: `split()` divides the current block at the caret
into two sibling blocks of the same type — content before the caret stays in
the first, content after goes to a new block inserted immediately after; the
index of the new (second) block is returned (§4.2). -/
def splitStore (st : EditorState) : EditorState × Nat :=
  match st.currentBlockIndex with
  | none => (st, 0)
  | some c =>
    match st.blocks[c]? with
    | none => (st, c)
    | some cur =>
      match cur.inputs[st.currentInputIndex]? with
      | none =>
        let nb := { cur with inputs := [""] }
        ({ st with blocks := st.blocks.take (c+1) ++ nb :: st.blocks.drop (c+1) }, c + 1)
      | some inp =>
        let firstHalf := { cur with
          inputs := cur.inputs.take st.currentInputIndex ++ [inp.take st.caretOffset] }
        let secondHalf := { cur with
          inputs := inp.drop st.caretOffset :: cur.inputs.drop (st.currentInputIndex + 1) }
        ({ st with
           blocks := st.blocks.take c ++ firstHalf :: secondHalf :: st.blocks.drop (c+1) },
         c + 1)

/-- Modelled from the spec: the reserved navigation keys of an open overlay's
flipper (`Flipper.usedKeys`): Tab, the four arrows, and Enter. -/
def flipperUsedKeys : List Nat :=
  [keyCodes.TAB, keyCodes.LEFT, keyCodes.RIGHT, keyCodes.ENTER,
   keyCodes.UP, keyCodes.DOWN]

/-! ### BlockEvents keyboard handlers (translated from the source) -/

/-- A keyboard event, as far as these handlers consume it. -/
structure KeydownEvent where
  shiftKey : Bool
  keyCode : Nat
deriving Repr, DecidableEq

/-- Outcome of a structural keyboard handler: the new editor state plus the
`event.preventDefault()` and `Toolbar.close()` effects. -/
structure BackspaceResult where
  state : EditorState
  preventedDefault : Bool
  toolbarClosed : Bool
deriving Repr, DecidableEq

/-- `BlockEvents.mergeBlocks(targetBlock, blockToMerge)`: returns untouched if
the target has no last input; otherwise focuses the end of the target's last
input and asks the store to merge. -/
def mergeBlocksEvents (st : EditorState) (targetIdx sourceIdx : Nat) : EditorState :=
  match st.blocks[targetIdx]? with
  | none => st
  | some t =>
    match t.inputs.getLast? with
    | none => st
    | some li =>
      let stF := { st with currentBlockIndex := some targetIdx,
                           currentInputIndex := t.inputs.length - 1,
                           caretOffset := li.length }
      storeMergeBlocks stF targetIdx sourceIdx

/-- `BlockEvents.backspace(event)`: the Backspace keydown handler, translated
branch by branch from the source.  `isCollapsed` is the selection probe's
answer at event time; `mg` is the Mergeability Policy (`areBlocksMergeable`,
a pure predicate per §4.3, supplied as a parameter since its code is not among
the sources). -/
def backspace (st : EditorState) (isCollapsed : Bool) (mg : Block → Block → Bool) :
    BackspaceResult :=
  match st.currentBlockIndex with
  | none => ⟨st, false, false⟩
  | some c =>
    match st.blocks[c]? with
    | none => ⟨st, false, false⟩
    | some cur =>
      if !isCollapsed then ⟨st, false, false⟩
      else
        match cur.inputs[st.currentInputIndex]? with
        | none => ⟨st, false, false⟩
        | some _ =>
          if !(isCaretAtStartOfInput st.caretOffset) then ⟨st, false, false⟩
          else
            if !(st.currentInputIndex == 0) then
              ⟨(navigatePrevious st).2, true, true⟩
            else
              match (if c == 0 then none else st.blocks[c-1]?) with
              | none => ⟨st, true, true⟩
              | some prev =>
                if prev.isEmpty then
                  ⟨removeBlockAt st (c-1), true, true⟩
                else if cur.isEmpty then
                  let st' := removeBlockAt st c
                  let nc := st'.currentBlockIndex.getD 0
                  ⟨setToBlock st' nc CaretPosition.atEnd, true, true⟩
                else if mg prev cur then
                  ⟨mergeBlocksEvents st (c-1) c, true, true⟩
                else
                  ⟨setToBlock st (c-1) CaretPosition.atEnd, true, true⟩

/-- `BlockEvents.delete(event)`: the Delete keydown handler.  The source reads
`currentBlock.currentInput` without first checking that a current block
exists, so the absent-current-block case is a thrown TypeError, modelled as
`none`. -/
def delete (st : EditorState) (isCollapsed : Bool) (mg : Block → Block → Bool) :
    Option BackspaceResult :=
  if !isCollapsed then some ⟨st, false, false⟩
  else
    match st.currentBlockIndex with
    | none => none
    | some c =>
      match st.blocks[c]? with
      | none => none
      | some cur =>
        let atEnd := match cur.inputs[st.currentInputIndex]? with
          | none => false
          | some inp => isCaretAtEndOfInput inp st.caretOffset
        if !atEnd then some ⟨st, false, false⟩
        else
          if !(st.currentInputIndex + 1 == cur.inputs.length) then
            some ⟨(navigateNext st).2, true, true⟩
          else
            match st.blocks[c+1]? with
            | none => some ⟨st, true, true⟩
            | some next =>
              if next.isEmpty then
                some ⟨removeBlockAt st (c+1), true, true⟩
              else if cur.isEmpty then
                some ⟨setToBlock (removeBlockAt st c) c CaretPosition.atStart, true, true⟩
              else if mg cur next then
                some ⟨mergeBlocksEvents st c (c+1), true, true⟩
              else
                some ⟨setToBlock st (c+1) CaretPosition.atStart, true, true⟩

/-- Outcome of the Enter handler: new state, suppression of the native Enter,
and the block over which the toolbar was moved and opened, if any. -/
structure EnterResult where
  state : EditorState
  preventedDefault : Bool
  toolbarMovedAndOpened : Option Nat
deriving Repr, DecidableEq

/-- `BlockEvents.enter(event)`: the Enter keydown handler.  The three UI flags
are the overlay aggregates the source reads (`UI.someToolbarOpened`,
`UI.someFlipperButtonFocused`) and the platform flag `_.isIosDevice`. -/
def enter (st : EditorState) (shiftKey someToolbarOpened someFlipperButtonFocused
    isIosDevice : Bool) : EnterResult :=
  match st.currentBlockIndex with
  | none => ⟨st, false, none⟩
  | some c =>
    match st.blocks[c]? with
    | none => ⟨st, false, none⟩
    | some cur =>
      if cur.isLineBreaksEnabled then ⟨st, false, none⟩
      else if someToolbarOpened && someFlipperButtonFocused then ⟨st, false, none⟩
      else if shiftKey && !isIosDevice then ⟨st, false, none⟩
      else
        let startBranch := match cur.inputs[st.currentInputIndex]? with
          | some _ => isCaretAtStartOfInput st.caretOffset && !cur.hasMedia
          | none => false
        let endBranch := match cur.inputs[st.currentInputIndex]? with
          | some inp => isCaretAtEndOfInput inp st.caretOffset
          | none => false
        let next : EditorState × Nat :=
          if startBranch then
            (insertDefaultBlockAtIndex st c false, c + 1)
          else if endBranch then
            (insertDefaultBlockAtIndex st (c+1) false, c + 1)
          else
            splitStore st
        ⟨setToBlock next.1 next.2 CaretPosition.dflt, true, some next.2⟩

/-- Outcome of the Tab handler. -/
structure TabResult where
  state : EditorState
  preventedDefault : Bool
deriving Repr, DecidableEq

/-- `BlockEvents.tabPressed(event)`: returns untouched while the inline
toolbar is open (its flipper is cycling its own items on Tab); otherwise asks
the Caret service to navigate and suppresses the native Tab exactly when the
navigation moved focus. -/
def tabPressed (st : EditorState) (shiftKey inlineToolbarOpened : Bool) : TabResult :=
  let isFlipperActivated := inlineToolbarOpened
  if isFlipperActivated then ⟨st, false⟩
  else
    let nav := if shiftKey then navigatePrevious st else navigateNext st
    ⟨nav.2, nav.1⟩

/-- Outcome of the arrow handlers: new state, native-move suppression,
toolbar closing, whether the Cross-Block Selection Coordinator's
`toggleBlockSelectedState` was invoked, and whether the stale multi-block
selection was cleared. -/
structure ArrowResult where
  state : EditorState
  preventedDefault : Bool
  toolbarClosed : Bool
  cbsToggled : Bool
  selectionCleared : Bool
deriving Repr, DecidableEq

/-- The `caretAtEnd` snapshot the arrow handler computes:
`currentBlock?.currentInput !== undefined ? isCaretAtEndOfInput(...) :
undefined`, with the absent case collapsing to a falsy value. -/
def caretAtEndOfCurrentInput (st : EditorState) : Bool :=
  match st.currentBlockIndex with
  | none => false
  | some c =>
    match st.blocks[c]? with
    | none => false
    | some b =>
      match b.inputs[st.currentInputIndex]? with
      | none => false
      | some inp => isCaretAtEndOfInput inp st.caretOffset

/-- `BlockEvents.arrowRightAndDown(event)`: the handler for the Right and Down
keys, translated branch by branch.  The deferred input-index resync scheduled
on a timer after an unhandled move is outside the synchronous semantics and is
not part of the state transition. -/
def arrowRightAndDown (st : EditorState) (shiftKey : Bool) (keyCode : Nat)
    (someToolbarOpened anyBlockSelected isRtl : Bool) : ArrowResult :=
  let isFlipperCombination :=
    flipperUsedKeys.contains keyCode && (!shiftKey || keyCode == keyCodes.TAB)
  if someToolbarOpened && isFlipperCombination then
    ⟨st, false, false, false, false⟩
  else
    let shouldEnableCBS := caretAtEndOfCurrentInput st || anyBlockSelected
    if shiftKey && keyCode == keyCodes.DOWN && shouldEnableCBS then
      ⟨st, false, true, true, false⟩
    else
      let navNext := keyCode == keyCodes.DOWN || (keyCode == keyCodes.RIGHT && !isRtl)
      let nav := if navNext then navigateNext st else navigatePrevious st
      if nav.1 then ⟨nav.2, true, true, false, false⟩
      else ⟨nav.2, false, true, false, true⟩

/-- Outcome of the Slash handler. -/
structure SlashResult where
  state : EditorState
  preventedDefault : Bool
  toolboxActivated : Bool
deriving Repr, DecidableEq

/-- `BlockEvents.slashPressed(event)`: the source reads
`BlockManager.currentBlock.isEmpty` without an undefined check, so the
absent-current-block case is a thrown TypeError, modelled as `none`. -/
def slashPressed (st : EditorState) : Option SlashResult :=
  match st.currentBlockIndex with
  | none => none
  | some c =>
    match st.blocks[c]? with
    | none => none
    | some cur =>
      if !cur.isEmpty then some ⟨st, false, false⟩
      else some ⟨insertContentAtCaretPosition st "/", true, true⟩

/-- `BlockEvents.dragOver(event)`: sets the drop-target highlight on the block
owning the event target.  The source assigns `block.dropTarget = true` without
checking that `getBlockByChildNode` found a block, so a target owned by no
block is a thrown TypeError, modelled as `none`. -/
def dragOver (st : EditorState) (targetOwner : Option Nat) : Option EditorState :=
  match getBlockByChildNode st targetOwner with
  | none => none
  | some i =>
    match st.blocks[i]? with
    | none => none
    | some b => some { st with blocks := st.blocks.set i { b with dropTarget := true } }

/-- `BlockEvents.dragLeave(event)`: clears the drop-target highlight; same
unchecked dereference as `dragOver`, modelled as `none`. -/
def dragLeave (st : EditorState) (targetOwner : Option Nat) : Option EditorState :=
  match getBlockByChildNode st targetOwner with
  | none => none
  | some i =>
    match st.blocks[i]? with
    | none => none
    | some b => some { st with blocks := st.blocks.set i { b with dropTarget := false } }

/-- `BlockEvents.needToolbarClosing(event)`: translated literally from the
source.  Note that `flippingToolbarItems` is `event.keyCode === TAB`
unconditionally, regardless of any toolbar being open. -/
def needToolbarClosing (ev : KeydownEvent)
    (toolboxOpened blockSettingsOpened inlineToolbarOpened : Bool) : Bool :=
  let toolboxItemSelected := ev.keyCode == keyCodes.ENTER && toolboxOpened
  let blockSettingsItemSelected := ev.keyCode == keyCodes.ENTER && blockSettingsOpened
  let inlineToolbarItemSelected := ev.keyCode == keyCodes.ENTER && inlineToolbarOpened
  let flippingToolbarItems := ev.keyCode == keyCodes.TAB
  !(ev.shiftKey || flippingToolbarItems || toolboxItemSelected ||
    blockSettingsItemSelected || inlineToolbarItemSelected)

/-! ### Drag/Drop Bridge (translated from `dragNDrop.ts`) -/

/-- The DragNDrop module's state: the editor plus its private
`isStartedAtEditor` flag. -/
structure DndState where
  editor : EditorState
  isStartedAtEditor : Bool
deriving Repr, DecidableEq

/-- A drop event, as far as `processDrop` consumes it: the selection probe's
answers at drop time and the block owning the event's DOM target, if any. -/
structure DropEvent where
  isAtEditor : Bool
  isCollapsed : Bool
  targetOwner : Option Nat
deriving Repr, DecidableEq

/-- The outward effects of `processDrop`, in the order the source issues
them. -/
inductive DropEffect where
  | preventDefault
  | clearDropTargets
  | deleteSelection
  | setCaretToEnd (blockIdx : Nat)
  | importPayload (isInternal : Bool)
deriving Repr, DecidableEq

/-- Outcome of `processDrop`: the new module state and the ordered effect
trace. -/
structure DropResult where
  state : DndState
  effects : List DropEffect
deriving Repr, DecidableEq

/-- Clearing the drop-target flag of every block
(`BlockManager.blocks.forEach(block => block.dropTarget = false)`). -/
def clearAllDropTargets (st : EditorState) : EditorState :=
  { st with blocks := st.blocks.map (fun b => { b with dropTarget := false }) }

/-- The block index at which the drop lands: the block owning the event's DOM
target, with a fallback to the last block when no block owns it. -/
def resolvedDropTarget (st : EditorState) (targetOwner : Option Nat) : Nat :=
  match getBlockByChildNode st targetOwner with
  | some i => i
  | none => st.blocks.length - 1

/-- `DragNDrop.processDrop(dropEvent)`: translated statement by statement.
The native-selection deletion (`document.execCommand`) is a browser-side
effect recorded in the trace; `setCurrentBlockByChildNode` resolves the target
(falling back to the last block) and `Caret.setToBlock(..., END)` places the
caret; finally the payload goes to `Paste.processDataTransfer(..., true)`. -/
def processDrop (d : DndState) (ev : DropEvent) : DropResult :=
  let ed0 := clearAllDropTargets d.editor
  let willDelete := ev.isAtEditor && !ev.isCollapsed && d.isStartedAtEditor
  let t := resolvedDropTarget ed0 ev.targetOwner
  let ed1 := { ed0 with currentBlockIndex := some t }
  let ed2 := setToBlock ed1 t CaretPosition.atEnd
  { state := { editor := ed2, isStartedAtEditor := false },
    effects := DropEffect.preventDefault :: DropEffect.clearDropTargets ::
      ((if willDelete then [DropEffect.deleteSelection] else []) ++
       [DropEffect.setCaretToEnd t, DropEffect.importPayload true]) }

/-- `DragNDrop.processDragStart()`: remembers that the drag originated inside
the editor when the selection is anchored there and non-collapsed; otherwise
leaves the flag untouched. -/
def processDragStart (d : DndState) (isAtEditor isCollapsed : Bool) : DndState :=
  if isAtEditor && !isCollapsed then { d with isStartedAtEditor := true } else d

/-- The drag-and-drop events the module handles; `dragOverEvt` only prevents
the default behaviour and leaves the state untouched. -/
inductive DndEvent where
  | dragStart (isAtEditor : Bool) (isCollapsed : Bool)
  | drop (ev : DropEvent)
  | dragOverEvt
deriving Repr, DecidableEq

/-- One step of the drag-and-drop module on an incoming event. -/
def dndStep (d : DndState) : DndEvent → DndState
  | DndEvent.dragStart a c => processDragStart d a c
  | DndEvent.drop ev => (processDrop d ev).state
  | DndEvent.dragOverEvt => d

/-- Running the drag-and-drop module over a sequence of events. -/
def dndRun (d : DndState) (es : List DndEvent) : DndState :=
  es.foldl dndStep d

/-! ### Concrete fixtures for witnesses and counterexamples -/

/-- A one-input paragraph block holding the given text. -/
def textBlock (s : String) : Block :=
  { typeId := "paragraph", inputs := [s], hasMedia := false,
    isLineBreaksEnabled := false, dropTarget := false }

/-- A sample mergeability policy: blocks of the same content type merge. -/
def sameTypeMergeable : Block → Block → Bool :=
  fun a b => a.typeId == b.typeId

/-- Two blocks, caret at the start of the first input of the second block. -/
def stTwoAtSecond : EditorState :=
  { blocks := [textBlock "ab", textBlock "cd"], currentBlockIndex := some 1,
    currentInputIndex := 0, caretOffset := 0 }

/-- Two blocks, caret at the end of the first block's input. -/
def stTwoAtEnd : EditorState :=
  { blocks := [textBlock "ab", textBlock "cd"], currentBlockIndex := some 0,
    currentInputIndex := 0, caretOffset := 2 }

/-- Two blocks, caret at the very start of the very first block. -/
def stFirstStart : EditorState :=
  { blocks := [textBlock "ab", textBlock "cd"], currentBlockIndex := some 0,
    currentInputIndex := 0, caretOffset := 0 }

/-- One block, caret strictly inside its text. -/
def stMid : EditorState :=
  { blocks := [textBlock "ab"], currentBlockIndex := some 0,
    currentInputIndex := 0, caretOffset := 1 }

/-- A state in which no block is current (focus left the editor). -/
def stNoCurrent : EditorState :=
  { blocks := [textBlock "ab"], currentBlockIndex := none,
    currentInputIndex := 0, caretOffset := 0 }

/-- A drag-and-drop module state with the internal-drag flag still unset. -/
def dndFresh : DndState :=
  { editor := stTwoAtEnd, isStartedAtEditor := false }

/-- A drop event anchored in the editor, non-collapsed, whose DOM target is
owned by no block. -/
def dropEvW : DropEvent :=
  { isAtEditor := true, isCollapsed := false, targetOwner := none }

/-- A drag-and-drop module state in which an internal drag is under way. -/
def dndStarted : DndState :=
  { editor := stTwoAtEnd, isStartedAtEditor := true }

end EditorCore

namespace EditorCore

/-! ### Helper lemmas -/

/-- A non-empty block has at least one input (emptiness is the conjunction of
its inputs' emptiness, so a block with no inputs is empty). -/
theorem Block.inputs_ne_nil_of_not_isEmpty {b : Block} (h : b.isEmpty = false) :
    b.inputs ≠ [] := by
  intro hnil
  rw [Block.isEmpty, hnil] at h
  simp at h

/-- Every drop resets the internal-drag flag. -/
theorem processDrop_resets_flag (d : DndState) (ev : DropEvent) :
    (processDrop d ev).state.isStartedAtEditor = false := rfl

/-- The drop handler emits the selection-deletion effect exactly when the drag
started inside the editor and the selection is non-collapsed and anchored in
the editor at drop time. -/
theorem deleteSelection_mem_processDrop (d : DndState) (ev : DropEvent) :
    DropEffect.deleteSelection ∈ (processDrop d ev).effects ↔
      (d.isStartedAtEditor = true ∧ ev.isAtEditor = true ∧ ev.isCollapsed = false) := by
  unfold processDrop
  cases hA : ev.isAtEditor <;> cases hC : ev.isCollapsed <;>
    cases hS : d.isStartedAtEditor <;> simp

/-! ### Claim theorems -/

/-- C2 (code_bug evidence): the spec promises that an absent referent is a
defined no-op, but the source dereferences it.  At the failing inputs — a
Delete keydown with a collapsed selection while no block is current, a Slash
keydown in the same situation, and a drag-over/drag-leave whose target is
owned by no block — the handlers fault (modelled as `none`) instead of
returning without effect.  The sibling Backspace and Enter handlers do guard
`currentBlock === undefined`, which shows the intended behaviour. -/
theorem absent_referent_handlers_fault :
    delete stNoCurrent true sameTypeMergeable = none ∧
    slashPressed stNoCurrent = none ∧
    dragOver stMid none = none ∧
    dragLeave stMid none = none :=
  ⟨rfl, rfl, rfl, rfl⟩

/-- C5: Tab pressed inside a block.  While the inline toolbar is open — the
overlay whose flipper is consuming Tab for its internal item-to-item focus
cycling at this event surface — the handler does nothing, and in particular
the Block Sequence Store's current index never changes; otherwise it asks the
Caret service to navigate to the previous input (Shift+Tab) or the next input
(Tab) across the block sequence, suppressing the native Tab exactly when the
navigation moved focus and letting it through when no navigable target
exists. -/
theorem tabPressed_spec (st : EditorState) (shiftKey inlineToolbarOpened : Bool) :
    (inlineToolbarOpened = true →
      tabPressed st shiftKey inlineToolbarOpened = ⟨st, false⟩ ∧
      (tabPressed st shiftKey inlineToolbarOpened).state.currentBlockIndex =
        st.currentBlockIndex) ∧
    (inlineToolbarOpened = false →
      (tabPressed st shiftKey inlineToolbarOpened).state =
        (if shiftKey then navigatePrevious st else navigateNext st).2 ∧
      ((tabPressed st shiftKey inlineToolbarOpened).preventedDefault = true ↔
        (if shiftKey then navigatePrevious st else navigateNext st).1 = true)) := by
  constructor
  · intro h; subst h; exact ⟨rfl, rfl⟩
  · intro h; subst h; exact ⟨rfl, Iff.rfl⟩

/-- C5 witness: with the inline toolbar open, Tab leaves a concrete two-block
state untouched. -/
theorem tabPressed_spec_witness :
    tabPressed stTwoAtEnd false true = ⟨stTwoAtEnd, false⟩ ∧
    (tabPressed stTwoAtEnd false true).state.currentBlockIndex =
      stTwoAtEnd.currentBlockIndex :=
  (tabPressed_spec stTwoAtEnd false true).1 rfl

/-- C6 (counterexample): the claim says `needToolbarClosing` returns false
only when Shift is held, when Tab is cycling an OPEN toolbar's own items, or
on Enter with a toolbox/block-settings/inline-toolbar active — and true for
every other event.  But for a plain Tab keydown with no Shift and all three
overlays closed (an "other" event under the claim), the source still returns
false: `flippingToolbarItems` is `event.keyCode === TAB` unconditionally. -/
theorem needToolbarClosing_tab_no_overlay_counterexample :
    needToolbarClosing { shiftKey := false, keyCode := keyCodes.TAB }
      false false false = false := by decide

/-- C6 (amended): `needToolbarClosing` returns false exactly when Shift is
held, or when Tab is pressed — regardless of whether any toolbar overlay is
open — or when Enter is pressed while the toolbox, the block settings, or the
inline toolbar is opened; and it returns true for every other event. -/
theorem needToolbarClosing_false_iff (ev : KeydownEvent)
    (toolboxOpened blockSettingsOpened inlineToolbarOpened : Bool) :
    needToolbarClosing ev toolboxOpened blockSettingsOpened inlineToolbarOpened = false
      ↔ (ev.shiftKey = true ∨ ev.keyCode = keyCodes.TAB ∨
          (ev.keyCode = keyCodes.ENTER ∧
            (toolboxOpened = true ∨ blockSettingsOpened = true ∨
             inlineToolbarOpened = true))) := by
  unfold needToolbarClosing
  cases hs : ev.shiftKey <;>
    cases ht : toolboxOpened <;>
    cases hb : blockSettingsOpened <;>
    cases hi : inlineToolbarOpened <;>
    simp [beq_iff_eq] <;> tauto

/-- C9: whatever the drop event and however the drag started, the payload is
handed to the content import pipeline with the internal-drop flag hardcoded
to `true` (`Paste.processDataTransfer(dropEvent.dataTransfer, true)`), and it
is the last effect of the drop. -/
theorem processDrop_import_flag_always_true (d : DndState) (ev : DropEvent) :
    (processDrop d ev).effects.getLast? = some (DropEffect.importPayload true) ∧
    ∀ b : Bool, DropEffect.importPayload b ∈ (processDrop d ev).effects → b = true := by
  unfold processDrop
  cases hw : (ev.isAtEditor && !ev.isCollapsed && d.isStartedAtEditor) <;>
    simp [hw, List.getLast?]

/-- C4 (counterexample): the claim says Shift together with Right (in a
left-to-right layout) while the caret is at the end of its input is delegated
to `toggleBlockSelectedState` with no caret movement.  In a concrete
two-block state with the caret at the end of the first block's input, a
Shift+Right keydown (no toolbar open, left-to-right) is NOT delegated — the
coordinator is never invoked — and the caret navigates to the next block
instead: the source only delegates on `keyCode === DOWN`. -/
theorem shiftRight_at_end_not_delegated_counterexample :
    caretAtEndOfCurrentInput stTwoAtEnd = true ∧
    (arrowRightAndDown stTwoAtEnd true keyCodes.RIGHT false false false).cbsToggled
      = false ∧
    (arrowRightAndDown stTwoAtEnd true
      keyCodes.RIGHT false false false).state.currentBlockIndex = some 1 := by decide

/-- C4 (amended): only Shift together with Down is a cross-block-selection
extension request: for every Shift+Down keydown while the caret is at the end
of its input or a multi-block selection is already active, the event is
delegated to the Cross-Block Selection Coordinator's
`toggleBlockSelectedState` and no caret movement happens (the state is
untouched); an open toolbar's flipper never owns Shift+Down, since with Shift
held a non-Tab key is not a flipper combination.  Shift+Right instead falls
through to ordinary caret navigation. -/
theorem shiftDown_delegates_to_cbs (st : EditorState)
    (someToolbarOpened anyBlockSelected isRtl : Bool)
    (hcbs : caretAtEndOfCurrentInput st = true ∨ anyBlockSelected = true) :
    arrowRightAndDown st true keyCodes.DOWN someToolbarOpened anyBlockSelected isRtl
      = ⟨st, false, true, true, false⟩ := by
  unfold arrowRightAndDown
  have hflip : (flipperUsedKeys.contains keyCodes.DOWN &&
      (!true || keyCodes.DOWN == keyCodes.TAB)) = false := by decide
  rw [hflip]
  have hcbs' : (caretAtEndOfCurrentInput st || anyBlockSelected) = true := by
    rcases hcbs with h | h <;> simp [h]
  simp [hcbs']

/-- C4 witness: a concrete Shift+Down at the end of the first block's input
is delegated and moves no caret. -/
theorem shiftDown_delegates_to_cbs_witness :
    arrowRightAndDown stTwoAtEnd true keyCodes.DOWN false false false
      = ⟨stTwoAtEnd, false, true, true, false⟩ :=
  shiftDown_delegates_to_cbs stTwoAtEnd false false false (Or.inl (by decide))

/-- C8: Backspace with a collapsed selection, the caret at the very start of
the first input of the very first block (so there is no previous block),
pressed any number of times, produces no structural change at all: the state
— block sequence, every block's content, and the current index — is exactly
the same after each press as before it. -/
theorem backspace_at_document_start_idempotent
    (st : EditorState) (mg : Block → Block → Bool) (cur : Block)
    (hc : st.currentBlockIndex = some 0)
    (hcur : st.blocks[0]? = some cur)
    (hin : st.currentInputIndex = 0)
    (hoff : st.caretOffset = 0)
    (hinp : cur.inputs ≠ []) :
    ∀ n : Nat, (fun s => (backspace s true mg).state)^[n] st = st := by
  obtain ⟨a, l, hal⟩ : ∃ a l, cur.inputs = a :: l := by
    cases hcl : cur.inputs with
    | nil => exact absurd hcl hinp
    | cons a l => exact ⟨a, l, rfl⟩
  have hfix : (backspace st true mg).state = st := by
    unfold backspace
    simp [hc, hcur, hin, hoff, hal, isCaretAtStartOfInput]
  intro n
  induction n with
  | zero => rfl
  | succ k ih =>
    rw [Function.iterate_succ_apply, hfix, ih]

/-- C1: Backspace with a collapsed selection and the caret at the start of the
current block's first input, when both the previous and current blocks exist
and are non-empty.  If the two blocks are mergeable per the Mergeability
Policy, the current block is merged into the previous one: the final content
is the concatenation of the previous and current blocks' inputs and the block
count decreases by one.  If they are not mergeable, both blocks stay intact
(the sequence is unchanged) and the caret moves to the end of the previous
block (its index, with the caret on its last input at that input's end). -/
theorem backspace_merge_policy
    (pre post : List Block) (prev cur : Block) (st : EditorState)
    (mg : Block → Block → Bool)
    (hblocks : st.blocks = pre ++ prev :: cur :: post)
    (hc : st.currentBlockIndex = some (pre.length + 1))
    (hin : st.currentInputIndex = 0)
    (hoff : st.caretOffset = 0)
    (hpe : prev.isEmpty = false)
    (hce : cur.isEmpty = false) :
    (mg prev cur = true →
      (backspace st true mg).state.blocks =
        pre ++ { prev with inputs := prev.inputs ++ cur.inputs } :: post ∧
      (backspace st true mg).state.blocks.length + 1 = st.blocks.length) ∧
    (mg prev cur = false →
      (backspace st true mg).state.blocks = st.blocks ∧
      (backspace st true mg).state.currentBlockIndex = some pre.length ∧
      (backspace st true mg).state.currentInputIndex = prev.inputs.length - 1 ∧
      (backspace st true mg).state.caretOffset =
        ((prev.inputs.getLast?).getD "").length) := by
  obtain ⟨a, l, hal⟩ : ∃ a l, cur.inputs = a :: l := by
    cases hcl : cur.inputs with
    | nil => exact absurd hcl (Block.inputs_ne_nil_of_not_isEmpty hce)
    | cons a l => exact ⟨a, l, rfl⟩
  have hgetcur : st.blocks[pre.length + 1]? = some cur := by
    rw [hblocks, List.getElem?_append_right (by omega)]
    simp
  have hgetprev : st.blocks[pre.length]? = some prev := by
    rw [hblocks, List.getElem?_append_right (le_refl _)]
    simp
  obtain ⟨li, hli⟩ : ∃ li, prev.inputs.getLast? = some li :=
    Option.isSome_iff_exists.mp
      ((List.getLast?_isSome).mpr (Block.inputs_ne_nil_of_not_isEmpty hpe))
  have hred : backspace st true mg =
      (if mg prev cur then
        ⟨mergeBlocksEvents st pre.length (pre.length+1), true, true⟩
      else ⟨setToBlock st pre.length CaretPosition.atEnd, true, true⟩) := by
    unfold backspace
    simp [hc, hgetcur, hgetprev, hin, hoff, hal, hpe, hce, isCaretAtStartOfInput]
  constructor
  · intro hmg
    rw [hred, if_pos hmg]
    have hmergeBlocks : (mergeBlocksEvents st pre.length (pre.length+1)).blocks =
        pre ++ { prev with inputs := prev.inputs ++ cur.inputs } :: post := by
      unfold mergeBlocksEvents storeMergeBlocks removeBlockAt
      simp only [hgetprev, hgetcur, hli]
      rw [hblocks]
      simp [List.take_left, List.drop_append_eq_append_drop,
            List.drop_eq_nil_of_le, List.take_append_eq_append_take,
            List.take_of_length_le, List.drop_succ_cons, List.take_succ_cons,
            Nat.add_sub_cancel_left, List.append_eq_nil]
      rw [List.drop_eq_nil_of_le (by omega)]
      have h2 : pre.length + 1 + 1 - pre.length = 2 := by omega
      rw [h2]
      simp [List.drop_succ_cons]
    constructor
    · exact hmergeBlocks
    · rw [hmergeBlocks, hblocks]
      simp [List.length_append]
      omega
  · intro hmg
    rw [hred, if_neg (by simp [hmg])]
    unfold setToBlock
    simp [hgetprev, hli]

/-- C1 witness: two concrete adjacent paragraph blocks with the caret at the
start of the second; under the same-type policy they merge into one block
holding both texts. -/
theorem backspace_merge_policy_witness :
    (sameTypeMergeable (textBlock "ab") (textBlock "cd") = true →
      (backspace stTwoAtSecond true sameTypeMergeable).state.blocks =
        [{ textBlock "ab" with
            inputs := (textBlock "ab").inputs ++ (textBlock "cd").inputs }] ∧
      (backspace stTwoAtSecond true sameTypeMergeable).state.blocks.length + 1 =
        stTwoAtSecond.blocks.length) ∧
    (sameTypeMergeable (textBlock "ab") (textBlock "cd") = false →
      (backspace stTwoAtSecond true sameTypeMergeable).state.blocks =
        stTwoAtSecond.blocks ∧
      (backspace stTwoAtSecond true sameTypeMergeable).state.currentBlockIndex =
        some 0 ∧
      (backspace stTwoAtSecond true sameTypeMergeable).state.currentInputIndex =
        (textBlock "ab").inputs.length - 1 ∧
      (backspace stTwoAtSecond true sameTypeMergeable).state.caretOffset =
        (((textBlock "ab").inputs.getLast?).getD "").length) :=
  backspace_merge_policy [] [] (textBlock "ab") (textBlock "cd") stTwoAtSecond
    sameTypeMergeable rfl rfl rfl rfl (by decide) (by decide)

/-- C8 witness: three Backspace presses at the start of the first of two
concrete blocks leave the state unchanged. -/
theorem backspace_at_document_start_idempotent_witness :
    (fun s => (backspace s true sameTypeMergeable).state)^[3] stFirstStart
      = stFirstStart :=
  backspace_at_document_start_idempotent stFirstStart sameTypeMergeable
    (textBlock "ab") rfl rfl rfl rfl (by decide) 3

/-- C3: Enter keydown passing the guards (a current block exists, its tool
does not enable line breaks, no flipper button of an open toolbar is focused,
and it is not a plain Shift+Enter on a non-iOS platform), with a caret in the
current block's focused input.  If the caret is at the logical start of the
input and the block has no media, a new empty default block is inserted
before the current position and focus stays on the original block; else if
the caret is at the logical end, a new empty default block is inserted after
and focus moves to it; otherwise the block is split at the caret and focus
moves to the second half.  In all three cases the toolbar is moved and opened
over the focused block and the default browser action is suppressed. -/
theorem enter_spec
    (pre post : List Block) (cur : Block) (inp : String) (st : EditorState)
    (shiftKey someToolbarOpened someFlipperButtonFocused isIosDevice : Bool)
    (hblocks : st.blocks = pre ++ cur :: post)
    (hc : st.currentBlockIndex = some pre.length)
    (hinp : cur.inputs[st.currentInputIndex]? = some inp)
    (hlb : cur.isLineBreaksEnabled = false)
    (hfl : (someToolbarOpened && someFlipperButtonFocused) = false)
    (hsh : (shiftKey && !isIosDevice) = false) :
    ((enter st shiftKey someToolbarOpened someFlipperButtonFocused
        isIosDevice).preventedDefault = true ∧
     (enter st shiftKey someToolbarOpened someFlipperButtonFocused
        isIosDevice).toolbarMovedAndOpened = some (pre.length + 1) ∧
     (enter st shiftKey someToolbarOpened someFlipperButtonFocused
        isIosDevice).state.currentBlockIndex = some (pre.length + 1)) ∧
    (isCaretAtStartOfInput st.caretOffset = true → cur.hasMedia = false →
      (enter st shiftKey someToolbarOpened someFlipperButtonFocused
        isIosDevice).state.blocks = pre ++ defaultBlock :: cur :: post ∧
      (enter st shiftKey someToolbarOpened someFlipperButtonFocused
        isIosDevice).state.blocks[pre.length + 1]? = some cur ∧
      defaultBlock.isEmpty = true) ∧
    ((isCaretAtStartOfInput st.caretOffset && !cur.hasMedia) = false →
      isCaretAtEndOfInput inp st.caretOffset = true →
      (enter st shiftKey someToolbarOpened someFlipperButtonFocused
        isIosDevice).state.blocks = pre ++ cur :: defaultBlock :: post ∧
      (enter st shiftKey someToolbarOpened someFlipperButtonFocused
        isIosDevice).state.blocks[pre.length + 1]? = some defaultBlock) ∧
    ((isCaretAtStartOfInput st.caretOffset && !cur.hasMedia) = false →
      isCaretAtEndOfInput inp st.caretOffset = false →
      (enter st shiftKey someToolbarOpened someFlipperButtonFocused
        isIosDevice).state.blocks = pre ++
        { cur with inputs :=
            cur.inputs.take st.currentInputIndex ++ [inp.take st.caretOffset] } ::
        { cur with inputs :=
            inp.drop st.caretOffset :: cur.inputs.drop (st.currentInputIndex + 1) } ::
        post) := by
  have hgetcur : st.blocks[pre.length]? = some cur := by
    rw [hblocks, List.getElem?_append_right (le_refl _)]
    simp
  have harith1 : pre.length + 1 - pre.length = 1 := by omega
  have hins1 : insertDefaultBlockAtIndex st pre.length false =
      { st with blocks := pre ++ defaultBlock :: cur :: post } := by
    unfold insertDefaultBlockAtIndex
    rw [hblocks, List.take_left, List.drop_left]
    simp
  have hget1 : (pre ++ defaultBlock :: cur :: post)[pre.length + 1]? = some cur := by
    rw [List.getElem?_append_right (by omega), harith1]
    simp
  have hset1 : setToBlock { st with blocks := pre ++ defaultBlock :: cur :: post }
      (pre.length + 1) CaretPosition.dflt =
      { blocks := pre ++ defaultBlock :: cur :: post,
        currentBlockIndex := some (pre.length+1),
        currentInputIndex := 0, caretOffset := 0 } := by
    unfold setToBlock
    simp [hget1]
  have hins2 : insertDefaultBlockAtIndex st (pre.length+1) false =
      { st with blocks := pre ++ cur :: defaultBlock :: post } := by
    unfold insertDefaultBlockAtIndex
    rw [hblocks, List.take_append_eq_append_take, List.drop_append_eq_append_drop]
    rw [List.take_of_length_le (by omega), List.drop_eq_nil_of_le (by omega), harith1]
    simp
  have hget2 : (pre ++ cur :: defaultBlock :: post)[pre.length + 1]? = some defaultBlock := by
    rw [List.getElem?_append_right (by omega), harith1]
    simp
  have hset2 : setToBlock { st with blocks := pre ++ cur :: defaultBlock :: post }
      (pre.length + 1) CaretPosition.dflt =
      { blocks := pre ++ cur :: defaultBlock :: post,
        currentBlockIndex := some (pre.length+1),
        currentInputIndex := 0, caretOffset := 0 } := by
    unfold setToBlock
    simp [hget2]
  have hsplit : splitStore st =
      ({ st with blocks := pre ++
          { cur with inputs :=
              cur.inputs.take st.currentInputIndex ++ [inp.take st.caretOffset] } ::
          { cur with inputs :=
              inp.drop st.caretOffset :: cur.inputs.drop (st.currentInputIndex + 1) } ::
          post }, pre.length + 1) := by
    unfold splitStore
    simp only [hc, hgetcur, hinp]
    rw [hblocks, List.take_left, List.drop_append_eq_append_drop]
    rw [@List.drop_eq_nil_of_le Block pre (pre.length + 1) (by omega), harith1]
    simp
  have hget3 : ∀ f s : Block, (pre ++ f :: s :: post)[pre.length + 1]? = some s := by
    intro f s
    rw [List.getElem?_append_right (by omega), harith1]
    simp
  have hset3 : ∀ f s : Block, setToBlock { st with blocks := pre ++ f :: s :: post }
      (pre.length + 1) CaretPosition.dflt =
      { blocks := pre ++ f :: s :: post,
        currentBlockIndex := some (pre.length+1),
        currentInputIndex := 0, caretOffset := 0 } := by
    intro f s
    unfold setToBlock
    simp [hget3]
  unfold enter
  simp only [hc, hgetcur, hlb, hfl, hsh, hinp, Bool.false_eq_true, if_false]
  cases hs : isCaretAtStartOfInput st.caretOffset <;>
    cases hm : cur.hasMedia <;>
      cases he : isCaretAtEndOfInput inp st.caretOffset <;>
        simp only [Bool.and_true, Bool.and_false, Bool.true_and, Bool.false_and,
          Bool.not_true, Bool.not_false, if_true, if_false, Bool.false_eq_true,
          hins1, hins2, hsplit, hset1, hset2, hset3, hget1, hget2, hget3] <;>
        simp_all [hget1, hget2, hget3] <;> decide

/-- C3 witness: Enter with the caret strictly inside a concrete one-block
paragraph; the block is split and focus moves to the second half. -/
theorem enter_spec_witness :
    ((enter stMid false false false false).preventedDefault = true ∧
     (enter stMid false false false false).toolbarMovedAndOpened = some 1 ∧
     (enter stMid false false false false).state.currentBlockIndex = some 1) ∧
    (isCaretAtStartOfInput stMid.caretOffset = true →
      (textBlock "ab").hasMedia = false →
      (enter stMid false false false false).state.blocks =
        [] ++ defaultBlock :: textBlock "ab" :: [] ∧
      (enter stMid false false false false).state.blocks[1]? =
        some (textBlock "ab") ∧
      defaultBlock.isEmpty = true) ∧
    ((isCaretAtStartOfInput stMid.caretOffset && !(textBlock "ab").hasMedia) = false →
      isCaretAtEndOfInput "ab" stMid.caretOffset = true →
      (enter stMid false false false false).state.blocks =
        [] ++ textBlock "ab" :: defaultBlock :: [] ∧
      (enter stMid false false false false).state.blocks[1]? = some defaultBlock) ∧
    ((isCaretAtStartOfInput stMid.caretOffset && !(textBlock "ab").hasMedia) = false →
      isCaretAtEndOfInput "ab" stMid.caretOffset = false →
      (enter stMid false false false false).state.blocks = [] ++
        { (textBlock "ab") with inputs :=
            (textBlock "ab").inputs.take stMid.currentInputIndex ++
              ["ab".take stMid.caretOffset] } ::
        { (textBlock "ab") with inputs :=
            ("ab".drop stMid.caretOffset) ::
              (textBlock "ab").inputs.drop (stMid.currentInputIndex + 1) } :: []) :=
  enter_spec [] [] (textBlock "ab") "ab" stMid false false false false
    rfl rfl rfl rfl rfl rfl


/-- The internal-drag flag can be true after a trace of drag-and-drop events
only if the trace ends with a qualifying drag-start (selection anchored in the
editor and non-collapsed) that is not followed by any drop. -/
theorem dndRun_flag_origin (d : DndState) (es : List DndEvent)
    (h0 : d.isStartedAtEditor = false)
    (h : (dndRun d es).isStartedAtEditor = true) :
    ∃ es₁ a c es₂, es = es₁ ++ DndEvent.dragStart a c :: es₂ ∧ a = true ∧
      c = false ∧ ∀ e ∈ es₂, ∀ ev2, e ≠ DndEvent.drop ev2 := by
  revert h
  induction es using List.reverseRecOn with
  | nil =>
    intro h
    rw [dndRun, List.foldl_nil, h0] at h
    exact absurd h (by simp)
  | append_singleton es' e ih =>
    intro h
    rw [dndRun, List.foldl_append, List.foldl_cons, List.foldl_nil] at h
    cases e with
    | dragStart a c =>
      by_cases hq : (a && !c) = true
      · obtain ⟨ha, hc⟩ : a = true ∧ c = false := by
          cases a <;> cases c <;> simp_all
        exact ⟨es', a, c, [], by simp, ha, hc, by simp⟩
      · have hflag : (List.foldl dndStep d es').isStartedAtEditor = true := by
          simp only [dndStep, processDragStart] at h
          rw [if_neg hq] at h
          exact h
        obtain ⟨es₁, a', c', es₂, heq, ha, hc, hnd⟩ := ih (by rw [dndRun]; exact hflag)
        refine ⟨es₁, a', c', es₂ ++ [DndEvent.dragStart a c], ?_, ha, hc, ?_⟩
        · rw [heq]
          simp
        · intro e he ev2
          rcases List.mem_append.mp he with h1 | h1
          · exact hnd e h1 ev2
          · simp at h1
            subst h1
            simp
    | drop ev2 =>
      simp only [dndStep] at h
      rw [processDrop_resets_flag] at h
      exact absurd h (by simp)
    | dragOverEvt =>
      simp only [dndStep] at h
      obtain ⟨es₁, a, c, es₂, heq, ha, hc, hnd⟩ := ih (by rw [dndRun]; exact h)
      refine ⟨es₁, a, c, es₂ ++ [DndEvent.dragOverEvt], ?_, ha, hc, ?_⟩
      · rw [heq]
        simp
      · intro e he ev2
        rcases List.mem_append.mp he with h1 | h1
        · exact hnd e h1 ev2
        · simp at h1
          subst h1
          simp

/-- C10: the internal-drag flag (`isStartedAtEditor`) is set only by a
drag-start occurring while a non-collapsed selection is anchored inside the
editor, and is reset to false by every drop; hence the delete-the-dragged-
selection branch of the drop handler never executes unless such a drag-start
has occurred since the previous drop (the event trace contains a qualifying
drag-start with no drop after it). -/
theorem dnd_internal_flag_discipline :
    (∀ (d : DndState) (a c : Bool),
        (processDragStart d a c).isStartedAtEditor = true →
        d.isStartedAtEditor = true ∨ (a = true ∧ c = false)) ∧
    (∀ (d : DndState) (ev : DropEvent),
        (processDrop d ev).state.isStartedAtEditor = false) ∧
    (∀ (d0 : DndState) (es : List DndEvent) (ev : DropEvent),
        d0.isStartedAtEditor = false →
        DropEffect.deleteSelection ∈ (processDrop (dndRun d0 es) ev).effects →
        ∃ es₁ a c es₂, es = es₁ ++ DndEvent.dragStart a c :: es₂ ∧ a = true ∧
          c = false ∧ ∀ e ∈ es₂, ∀ ev2, e ≠ DndEvent.drop ev2) := by
  refine ⟨?_, processDrop_resets_flag, ?_⟩
  · intro d a c h
    unfold processDragStart at h
    by_cases hq : (a && !c) = true
    · right
      cases a <;> cases c <;> simp_all
    · left
      rw [if_neg hq] at h
      exact h
  · intro d0 es ev h0 hdel
    exact dndRun_flag_origin d0 es h0
      ((deleteSelection_mem_processDrop (dndRun d0 es) ev).mp hdel).1

/-- C10 witness: a single qualifying drag-start followed by an internal drop
that does delete the dragged selection. -/
theorem dnd_internal_flag_discipline_witness :
    ∃ es₁ a c es₂, [DndEvent.dragStart true false] =
        es₁ ++ DndEvent.dragStart a c :: es₂ ∧ a = true ∧ c = false ∧
        ∀ e ∈ es₂, ∀ ev2, e ≠ DndEvent.drop ev2 :=
  dnd_internal_flag_discipline.2.2 dndFresh [DndEvent.dragStart true false]
    { isAtEditor := true, isCollapsed := false, targetOwner := none } rfl (by decide)

/-- C7: on every drop event the default browser handling is suppressed, the
drop-target highlight flag is cleared on every block, the dragged selection is
deleted exactly when the drag originated internally with a non-collapsed
selection anchored in the editor, the drop target block is resolved from the
event's DOM target with a fallback to the last block when the target is owned
by no block, the caret is placed at the end of that block (its index becomes
current, the caret on its last input at that input's end), and only then —
last in the effect order — is the payload handed to the import pipeline. -/
theorem processDrop_spec (d : DndState) (ev : DropEvent)
    (hne : d.editor.blocks ≠ []) :
    (processDrop d ev).effects =
      DropEffect.preventDefault :: DropEffect.clearDropTargets ::
        ((if ev.isAtEditor && !ev.isCollapsed && d.isStartedAtEditor
          then [DropEffect.deleteSelection] else []) ++
         [DropEffect.setCaretToEnd (resolvedDropTarget d.editor ev.targetOwner),
          DropEffect.importPayload true]) ∧
    (DropEffect.deleteSelection ∈ (processDrop d ev).effects ↔
      (d.isStartedAtEditor = true ∧ ev.isAtEditor = true ∧ ev.isCollapsed = false)) ∧
    (∀ b ∈ (processDrop d ev).state.editor.blocks, b.dropTarget = false) ∧
    (processDrop d ev).state.editor.currentBlockIndex =
      some (resolvedDropTarget d.editor ev.targetOwner) ∧
    (processDrop d ev).state.editor.currentInputIndex =
      (((d.editor.blocks[resolvedDropTarget d.editor ev.targetOwner]?).getD
        defaultBlock).inputs.length - 1) ∧
    (processDrop d ev).state.editor.caretOffset =
      (((((d.editor.blocks[resolvedDropTarget d.editor ev.targetOwner]?).getD
        defaultBlock).inputs.getLast?).getD "").length) ∧
    (processDrop d ev).state.isStartedAtEditor = false := by
  have hres : resolvedDropTarget (clearAllDropTargets d.editor) ev.targetOwner =
      resolvedDropTarget d.editor ev.targetOwner := by
    unfold resolvedDropTarget getBlockByChildNode clearAllDropTargets
    cases ev.targetOwner <;> simp
  have hlen : 0 < d.editor.blocks.length := List.length_pos.mpr hne
  have ht : resolvedDropTarget d.editor ev.targetOwner < d.editor.blocks.length := by
    unfold resolvedDropTarget getBlockByChildNode
    cases ho : ev.targetOwner with
    | none => simpa using Nat.sub_lt hlen Nat.one_pos
    | some i =>
      by_cases hi : i < d.editor.blocks.length
      · simp [hi]
      · simp [hi]
        omega
  obtain ⟨b, hb⟩ : ∃ b, d.editor.blocks[resolvedDropTarget d.editor ev.targetOwner]?
      = some b := ⟨_, List.getElem?_eq_getElem ht⟩
  have hclr : (clearAllDropTargets d.editor).blocks[resolvedDropTarget d.editor
      ev.targetOwner]? = some { b with dropTarget := false } := by
    unfold clearAllDropTargets
    simp [List.getElem?_map, hb]
  refine ⟨?_, deleteSelection_mem_processDrop d ev, ?_, ?_, ?_, ?_, rfl⟩
  · simp only [processDrop]
    rw [hres]
  · intro x hx
    have hx' : x ∈ (clearAllDropTargets d.editor).blocks := by
      have : (processDrop d ev).state.editor.blocks =
          (clearAllDropTargets d.editor).blocks := by
        simp only [processDrop, setToBlock]
        rw [hres, hclr]
      rw [this] at hx
      exact hx
    unfold clearAllDropTargets at hx'
    simp only [List.mem_map] at hx'
    obtain ⟨y, _, hy⟩ := hx'
    rw [← hy]
  · simp only [processDrop, setToBlock]
    rw [hres, hclr]
  · simp only [processDrop, setToBlock]
    rw [hres, hclr]
    simp [hb]
  · simp only [processDrop, setToBlock]
    rw [hres, hclr]
    simp [hb]

/-- C7 witness: an internal drag dropped outside any block of a concrete
two-block editor; the selection is deleted, the highlight cleared, and the
caret lands at the end of the last block before the import. -/
theorem processDrop_spec_witness :
    (processDrop dndStarted dropEvW).effects =
      DropEffect.preventDefault :: DropEffect.clearDropTargets ::
        ((if dropEvW.isAtEditor && !dropEvW.isCollapsed && dndStarted.isStartedAtEditor
          then [DropEffect.deleteSelection] else []) ++
         [DropEffect.setCaretToEnd (resolvedDropTarget dndStarted.editor dropEvW.targetOwner),
          DropEffect.importPayload true]) ∧
    (DropEffect.deleteSelection ∈ (processDrop dndStarted dropEvW).effects ↔
      (dndStarted.isStartedAtEditor = true ∧ dropEvW.isAtEditor = true ∧
        dropEvW.isCollapsed = false)) ∧
    (∀ b ∈ (processDrop dndStarted dropEvW).state.editor.blocks, b.dropTarget = false) ∧
    (processDrop dndStarted dropEvW).state.editor.currentBlockIndex =
      some (resolvedDropTarget dndStarted.editor dropEvW.targetOwner) ∧
    (processDrop dndStarted dropEvW).state.editor.currentInputIndex =
      (((dndStarted.editor.blocks[resolvedDropTarget dndStarted.editor
        dropEvW.targetOwner]?).getD defaultBlock).inputs.length - 1) ∧
    (processDrop dndStarted dropEvW).state.editor.caretOffset =
      (((((dndStarted.editor.blocks[resolvedDropTarget dndStarted.editor
        dropEvW.targetOwner]?).getD defaultBlock).inputs.getLast?).getD "").length) ∧
    (processDrop dndStarted dropEvW).state.isStartedAtEditor = false :=
  processDrop_spec dndStarted dropEvW (by decide)

end EditorCore
